import Mathlib

/-!
Verification of the Stock_predict dashboard (`src/app.py`).

The app talks to an external market-data provider (yfinance).  We model the
provider abstractly: `history sym period` is the chronological list of daily
closing prices the provider returns for a ticker symbol and a period code
(empty list when the symbol is unknown or has no data), and `currency sym`
is the optional native-currency entry of the symbol's `fast_info` metadata.
Prices are modelled as exact rationals.
-/

structure Provider where
  history : String → String → List ℚ
  currency : String → Option String

/-- Model currency constant from `app.py` line 10: `MODEL_CURRENCY = "INR"`. -/
def MODEL_CURRENCY : String := "INR"

/-- Embedding of `get_exchange_rate` (app.py lines 56-60), instrumented with
the list of provider symbols queried: the `frm == to` branch returns 1.0
with no query; the other branch queries `history` of the synthetic pair
`f"{frm}{to}=X"` for period `"1d"` and returns its last close
(`df["Close"].iloc[-1]`) when the frame is non-empty, else 1.0. -/
def get_exchange_rate_traced (p : Provider) (frm to' : String) :
    ℚ × List String :=
  if frm = to' then (1, [])
  else
    let sym := frm ++ to' ++ "=X"
    let df := p.history sym "1d"
    ((df.getLast?).getD 1, [sym])

/-- The conversion factor returned by `get_exchange_rate`. -/
def get_exchange_rate (p : Provider) (frm to' : String) : ℚ :=
  (get_exchange_rate_traced p frm to').1

/-- Embedding of the `period_map` dict of `get_stock_data` (app.py 65-68). -/
def period_map : List (String × String) :=
  [("1D", "1d"), ("1W", "5d"), ("1M", "1mo"), ("3M", "3mo"), ("6M", "6mo"),
   ("YTD", "ytd"), ("1Y", "1y"), ("2Y", "2y"), ("5Y", "5y"), ("10Y", "10y"),
   ("ALL", "max")]

/-- Embedding of `period_map.get(time_range, "1mo")` (app.py line 70). -/
def period_of (time_range : String) : String :=
  (period_map.lookup time_range).getD "1mo"

/-- Embedding of `get_stock_data` (app.py 63-72): fetches the history for
the mapped period and the native currency from `fast_info`, defaulting to
`"USD"` when the metadata has no currency entry. -/
def get_stock_data (p : Provider) (symbol time_range : String) :
    List ℚ × String :=
  let df := p.history symbol (period_of time_range)
  let currency := (p.currency symbol).getD "USD"
  (df, currency)

/-- Embedding of `get_live_price` (app.py 75-85): fetches the `"2d"`
history; with fewer than two bars returns `(None, None, currency)`;
otherwise price is the latest close (`iloc[-1]`), change is latest minus
prior (`iloc[-1] - iloc[-2]`), and the currency is the `fast_info` entry
defaulting to `"USD"` in both branches. -/
def get_live_price (p : Provider) (symbol : String) :
    Option ℚ × Option ℚ × String :=
  let df := p.history symbol "2d"
  let currency := (p.currency symbol).getD "USD"
  if df.length < 2 then (none, none, currency)
  else
    let price := (df.getLast?).getD 0
    let prior := (df.dropLast.getLast?).getD 0
    (some price, some (price - prior), currency)

/-- Direction computed by `plot_stock_chart` (app.py line 89):
`up = df["Close"].iloc[-1] >= df["Close"].iloc[0]`.  The function is only
invoked on a non-empty frame (the caller guards with `not df.empty`);
on an empty series the accesses would fail, modelled as `none`. -/
def chart_up (df : List ℚ) : Option Bool :=
  match df.head?, df.getLast? with
  | some first, some last => some (decide (last ≥ first))
  | _, _ => none

/-- Line color and fill chosen by `plot_stock_chart` (app.py 90-91). -/
def chart_style (up : Bool) : String × String :=
  if up then ("green", "rgba(0,255,0,0.25)") else ("red", "rgba(255,0,0,0.25)")

/-- Main-panel chart path (app.py 152-158): fetch, then if the series is
non-empty rescale every close by `get_exchange_rate base display` and chart
it; an empty series instead shows the "No data available" warning,
modelled as `none`. -/
def main_chart (p : Provider) (symbol time_range display_currency : String) :
    Option (List ℚ) :=
  let (df, base_currency) := get_stock_data p symbol time_range
  if df.isEmpty then none
  else
    let rate := get_exchange_rate p base_currency display_currency
    some (df.map (fun c => c * rate))

/-- Feature rescaling applied before prediction (app.py line 131):
`model.predict(np.array([[oc * rate, hl * rate]]))`. -/
def rescale (rate oc hl : ℚ) : ℚ × ℚ :=
  (oc * rate, hl * rate)

/-- The Predict-button action (app.py 129-131): look up the rate from the
input currency to `MODEL_CURRENCY` and invoke the classifier, abstracted as
a function `predict`, on the rescaled feature pair. -/
def predict_action (predict : ℚ → ℚ → ℤ) (p : Provider)
    (input_currency : String) (oc hl : ℚ) : ℤ :=
  let rate := get_exchange_rate p input_currency MODEL_CURRENCY
  let f := rescale rate oc hl
  predict f.1 f.2

/-- The hardcoded watchlist `TOP_STOCKS` (app.py 163-172). -/
def TOP_STOCKS : List (String × String) :=
  [("MRF.BO", "MRF Ltd"),
   ("RELIANCE.NS", "Reliance"),
   ("TCS.NS", "TCS"),
   ("INFY.NS", "Infosys"),
   ("HDFCBANK.NS", "HDFC Bank"),
   ("SBIN.NS", "SBI"),
   ("BEL.NS", "Bharat Electronics"),
   ("ITC.NS", "ITC")]

/-- One iteration of the side-panel loop (app.py 177-199) for one symbol:
fetch the live snapshot, skip the row (`continue`) when the price is
`None`, otherwise convert price and change by
`get_exchange_rate base_currency display_currency` and pick the CSS class
and sign by the converted change's sign.  In `get_live_price` the change is
`None` exactly when the price is, so matching on both options is faithful
to the code's `if price is None` test.  The result carries
(converted price, converted change, css class, sign). -/
def side_row (p : Provider) (display_currency sym : String) :
    Option (ℚ × ℚ × String × String) :=
  match get_live_price p sym with
  | (some price, some change, base_currency) =>
      let rate := get_exchange_rate p base_currency display_currency
      let price := price * rate
      let change := change * rate
      let cls := if change ≥ 0 then "price-up" else "price-down"
      let sign := if change ≥ 0 then "+" else ""
      some (price, change, cls, sign)
  | _ => none

/-- The rendered side panel (app.py 174-199): the rows displayed, in the
order of `TOP_STOCKS`, tagged with symbol and name; entries whose live
price is `None` are skipped by the loop's `continue`. -/
def side_panel (p : Provider) (display_currency : String) :
    List (String × String × ℚ × ℚ × String × String) :=
  TOP_STOCKS.filterMap (fun e =>
    (side_row p display_currency e.1).map (fun r => (e.1, e.2, r)))

/-- Modelled from the spec: the `st.cache_data(ttl=...)` memoization that
`app.py` applies to its fetchers lives in the Streamlit library, not in
this repository, and the spec describes it as "a process-lifetime keyed
cache mapping request parameters to (result, expiry-timestamp)".  A cache
is a map from key to cached value and expiry timestamp. -/
def Cache (κ α : Type) : Type := κ → Option (α × ℕ)

/-- Modelled from the spec: one memoized call under the time-to-live
policy — "a lookup past expiry is treated as a miss and triggers a fresh
fetch that overwrites the entry".  A stored entry whose expiry lies in the
future is a hit, returned as-is with no underlying call; a missing or
expired entry is a miss, so the underlying function runs and its result is
stored with expiry `now + ttl`, overwriting the entry.  The boolean
reports whether the underlying (provider-touching) function ran. -/
def cache_step {κ α : Type} [DecidableEq κ] (ttl : ℕ) (f : κ → α)
    (now : ℕ) (c : Cache κ α) (k : κ) : α × Cache κ α × Bool :=
  match c k with
  | some (v, expiry) =>
      if now < expiry then (v, c, false)
      else
        let v := f k
        (v, fun j => if j = k then some (v, now + ttl) else c j, true)
  | none =>
      let v := f k
      (v, fun j => if j = k then some (v, now + ttl) else c j, true)

/-- TTL of `get_stock_data` (app.py line 63: `@st.cache_data(ttl=600)`). -/
def get_stock_data_ttl : ℕ := 600

/-- TTL of `get_live_price` (app.py line 75: `@st.cache_data(ttl=120)`). -/
def get_live_price_ttl : ℕ := 120

/-- TTL of `get_exchange_rate` (app.py line 55: `@st.cache_data(ttl=600)`). -/
def get_exchange_rate_ttl : ℕ := 600

/-- The cached form of `get_stock_data`, keyed by `(symbol, time_range)`. -/
def cached_get_stock_data (p : Provider) (now : ℕ)
    (c : Cache (String × String) (List ℚ × String)) (k : String × String) :
    (List ℚ × String) × Cache (String × String) (List ℚ × String) × Bool :=
  cache_step get_stock_data_ttl (fun k => get_stock_data p k.1 k.2) now c k

/-- A provider with no data at all: every history is empty and no symbol
has currency metadata. -/
def emptyProvider : Provider :=
  { history := fun _ _ => [], currency := fun _ => none }

/-- A concrete all-data provider used in witnesses: every symbol's history
is the two bars `[10, 12]` and every symbol's native currency is `"USD"`. -/
def goodProvider : Provider :=
  { history := fun _ _ => [10, 12], currency := fun _ => some "USD" }

/-- C1: for every currency code X, `get_exchange_rate(X, X)` returns
exactly 1.0 and performs no provider query (the traced call records an
empty query list). -/
theorem exchange_rate_identity (p : Provider) (X : String) :
    get_exchange_rate_traced p X X = (1, []) ∧ get_exchange_rate p X X = 1 := by
  constructor <;> simp [get_exchange_rate, get_exchange_rate_traced]

/-- C2: for distinct currency codes, `get_exchange_rate` queries exactly
the synthetic pair `{frm}{to}=X` and returns its latest daily close when
the query yields data, and 1.0 when the result is empty; being a total
function of the provider's answer, it raises in neither case. -/
theorem exchange_rate_cross (p : Provider) (frm to' : String) (h : frm ≠ to') :
    (p.history (frm ++ to' ++ "=X") "1d" = [] →
      get_exchange_rate p frm to' = 1) ∧
    (∀ c, (p.history (frm ++ to' ++ "=X") "1d").getLast? = some c →
      get_exchange_rate p frm to' = c) ∧
    get_exchange_rate_traced p frm to' =
      (((p.history (frm ++ to' ++ "=X") "1d").getLast?).getD 1,
       [frm ++ to' ++ "=X"]) := by
  refine ⟨fun he => ?_, fun c hc => ?_, ?_⟩ <;>
    simp [get_exchange_rate, get_exchange_rate_traced, h]
  · simp [he]
  · simp [hc]

theorem exchange_rate_cross_witness :
    get_exchange_rate goodProvider "USD" "INR" = 12 :=
  (exchange_rate_cross goodProvider "USD" "INR" (by decide)).2.1 12 (by decide)

/-- C3: when the provider history for the mapped period is empty (unknown
symbol, no trading history), `get_stock_data` returns the empty series
paired with a currency code without raising, and the main panel takes the
"No data available" path instead of charting. -/
theorem stock_data_empty (p : Provider)
    (symbol time_range display_currency : String)
    (h : p.history symbol (period_of time_range) = []) :
    get_stock_data p symbol time_range =
      ([], (p.currency symbol).getD "USD") ∧
    main_chart p symbol time_range display_currency = none := by
  constructor
  · simp [get_stock_data, h]
  · simp [main_chart, get_stock_data, h]

theorem stock_data_empty_witness :
    get_stock_data emptyProvider "ZZZZ" "1M" = ([], "USD") ∧
    main_chart emptyProvider "ZZZZ" "1M" "USD" = none :=
  stock_data_empty emptyProvider "ZZZZ" "1M" "USD" rfl

/-- C5: `plot_stock_chart` classifies direction by comparing only the
first and last closes: last ≥ first gives the "up" styling (green color,
green fill), last < first the "down" styling (red); the series
`[10, 8, 12]` is classified up despite the intermediate dip. -/
theorem chart_direction (df : List ℚ) (first last : ℚ)
    (h1 : df.head? = some first) (h2 : df.getLast? = some last) :
    chart_up df = some (decide (last ≥ first)) ∧
    (first ≤ last →
      chart_up df = some true ∧
      chart_style true = ("green", "rgba(0,255,0,0.25)")) ∧
    (last < first →
      chart_up df = some false ∧
      chart_style false = ("red", "rgba(255,0,0,0.25)")) ∧
    chart_up [10, 8, 12] = some true := by
  refine ⟨?_, fun hle => ⟨?_, rfl⟩, fun hlt => ⟨?_, rfl⟩, by decide⟩ <;>
    simp [chart_up, h1, h2]
  · exact hle
  · exact hlt

theorem chart_direction_witness :
    chart_up [10, 8, 12] = some true :=
  ((chart_direction [10, 8, 12] 10 12 (by decide) (by decide)).2.1
    (by norm_num)).1

/-- C6: when the input currency equals the model currency `"INR"`, the
rescale factor is exactly 1, the classifier receives the feature pair
unchanged, and rescaling by factor 1 is the identity on every feature
pair. -/
theorem inr_identity_rescale (p : Provider) (predict : ℚ → ℚ → ℤ)
    (oc hl : ℚ) :
    get_exchange_rate p "INR" MODEL_CURRENCY = 1 ∧
    predict_action predict p "INR" oc hl = predict oc hl ∧
    ∀ a b : ℚ, rescale 1 a b = (a, b) := by
  refine ⟨?_, ?_, fun a b => ?_⟩ <;>
    simp [predict_action, rescale, get_exchange_rate,
      get_exchange_rate_traced, MODEL_CURRENCY]

/-- C10: each of the eleven enumerated range labels maps to its own
provider period code, and every label outside the eleven silently falls
back to the one-month period `"1mo"`. -/
theorem period_map_fallback :
    (∀ e ∈ period_map, period_of e.1 = e.2) ∧
    ∀ r, r ∉ period_map.map Prod.fst → period_of r = "1mo" := by
  constructor
  · decide
  · intro r h
    simp [period_map] at h
    obtain ⟨h1, h2, h3, h4, h5, h6, h7, h8, h9, h10, h11⟩ := h
    have e1 := beq_eq_false_iff_ne.mpr h1
    have e2 := beq_eq_false_iff_ne.mpr h2
    have e3 := beq_eq_false_iff_ne.mpr h3
    have e4 := beq_eq_false_iff_ne.mpr h4
    have e5 := beq_eq_false_iff_ne.mpr h5
    have e6 := beq_eq_false_iff_ne.mpr h6
    have e7 := beq_eq_false_iff_ne.mpr h7
    have e8 := beq_eq_false_iff_ne.mpr h8
    have e9 := beq_eq_false_iff_ne.mpr h9
    have e10 := beq_eq_false_iff_ne.mpr h10
    have e11 := beq_eq_false_iff_ne.mpr h11
    simp [period_of, period_map, List.lookup,
      e1, e2, e3, e4, e5, e6, e7, e8, e9, e10, e11]

theorem period_map_fallback_witness :
    period_of "1D" = "1d" ∧ period_of "7D" = "1mo" :=
  ⟨period_map_fallback.1 ("1D", "1d") (by decide),
   period_map_fallback.2 "7D" (by decide)⟩

/-- C4: `get_live_price` returns null price and change (with the known
currency code) exactly when fewer than two bars exist in the two-day
history; otherwise the price is the latest close and the change is the
latest close minus the prior close, exactly. -/
theorem live_price_spec (p : Provider) (symbol : String) (df : List ℚ)
    (hdf : p.history symbol "2d" = df) :
    (df.length < 2 →
      get_live_price p symbol =
        (none, none, (p.currency symbol).getD "USD")) ∧
    ∀ (h : 2 ≤ df.length),
      get_live_price p symbol =
        (some (df.get ⟨df.length - 1, by omega⟩),
         some (df.get ⟨df.length - 1, by omega⟩ -
               df.get ⟨df.length - 2, by omega⟩),
         (p.currency symbol).getD "USD") := by
  constructor
  · intro hlt
    simp [get_live_price, hdf, hlt]
  · intro h
    have hne : df ≠ [] := by
      intro e
      rw [e] at h
      simp at h
    have hlen : df.dropLast.length = df.length - 1 := List.length_dropLast df
    have hne2 : df.dropLast ≠ [] := by
      intro e
      rw [e] at hlen
      simp at hlen
      omega
    simp only [get_live_price, hdf]
    rw [if_neg (by omega)]
    rw [List.getLast?_eq_getLast_of_ne_nil hne,
      List.getLast?_eq_getLast_of_ne_nil hne2]
    simp only [Option.getD_some]
    rw [List.getLast_eq_get df hne, List.getLast_eq_get df.dropLast hne2]
    have hidx : df.dropLast.length - 1 < df.dropLast.length := by omega
    rw [List.get_dropLast df ⟨df.dropLast.length - 1, hidx⟩]
    have : (⟨df.dropLast.length - 1, by omega⟩ : Fin df.length) =
        ⟨df.length - 2, by omega⟩ := by
      apply Fin.ext
      simp only [hlen]
      omega
    rw [this]

theorem live_price_spec_witness :
    get_live_price goodProvider "AAPL" = (some 12, some 2, "USD") ∧
    get_live_price emptyProvider "AAPL" = (none, none, "USD") := by
  constructor
  · have h := (live_price_spec goodProvider "AAPL" [10, 12] rfl).2 (by norm_num)
    rw [h]
    norm_num [goodProvider]
  · exact ((live_price_spec emptyProvider "AAPL" [] rfl).1 (by norm_num)).trans
      rfl

/-- C7: for every watchlist stock whose live snapshot is non-null, the
rendered row shows the native price and native change both multiplied by
the same factor `get_exchange_rate native display`, with the CSS class and
sign chosen by the converted change's sign. -/
theorem watchlist_conversion (p : Provider) (display_currency sym : String)
    (price change : ℚ) (cur : String)
    (h : get_live_price p sym = (some price, some change, cur)) :
    side_row p display_currency sym =
      some (price * get_exchange_rate p cur display_currency,
            change * get_exchange_rate p cur display_currency,
            if change * get_exchange_rate p cur display_currency ≥ 0
              then "price-up" else "price-down",
            if change * get_exchange_rate p cur display_currency ≥ 0
              then "+" else "") := by
  simp [side_row, h]

theorem watchlist_conversion_witness :
    side_row goodProvider "EUR" "TCS.NS" = some (144, 24, "price-up", "+") := by
  have h := watchlist_conversion goodProvider "EUR" "TCS.NS" 12 2 "USD"
    (by norm_num [get_live_price, goodProvider])
  rw [h]
  have hr : get_exchange_rate goodProvider "USD" "EUR" = 12 := by
    simp [get_exchange_rate, get_exchange_rate_traced, goodProvider]
  rw [hr]
  norm_num

/-- Projection lemma for the side panel: mapping each rendered row back to
its (symbol, name) tag yields exactly the watchlist entries whose
`side_row` is non-null, in order. -/
theorem side_rows_proj (p : Provider) (dc : String)
    (l : List (String × String)) :
    ((l.filterMap (fun e =>
        (side_row p dc e.1).map (fun r => (e.1, e.2, r)))).map
      (fun row => (row.1, row.2.1))) =
    l.filter (fun e => (side_row p dc e.1).isSome) := by
  induction l with
  | nil => rfl
  | cons a t ih =>
      cases h : side_row p dc a.1 <;>
        simp [List.filterMap_cons, h, List.filter_cons, ih]

/-- C8 counterexample: with a provider that has no data, every watchlist
snapshot is null, the loop skips all eight entries via `continue`, and the
panel renders zero rows rather than eight. -/
theorem side_panel_zero_rows :
    (side_panel emptyProvider "USD").length = 0 ∧ TOP_STOCKS.length = 8 := by
  constructor
  · rfl
  · rfl

/-- C8 (amended): the watchlist is a hardcoded eight-entry list; the panel
renders, in the watchlist's fixed order, exactly one row per entry whose
live snapshot is non-null (entries with a null price are skipped), so its
rows project back to precisely the watchlist entries with a non-null
`side_row`, in order; and every rendered row carries the symbol, the name,
the converted price `native_price * rate(native, display)`, the converted
change with the same factor, and the "price-up" class exactly when the
converted change is non-negative. -/
theorem side_panel_spec :
    TOP_STOCKS.length = 8 ∧
    (∀ (p : Provider) (dc : String),
      (side_panel p dc).map (fun row => (row.1, row.2.1)) =
        TOP_STOCKS.filter (fun e => (side_row p dc e.1).isSome) ∧
      (side_panel p dc).length ≤ TOP_STOCKS.length ∧
      List.Sublist ((side_panel p dc).map (fun row => (row.1, row.2.1)))
        TOP_STOCKS) ∧
    ∀ (p : Provider) (dc sym name : String) (price change : ℚ)
      (cls sign : String),
      (sym, name, price, change, cls, sign) ∈ side_panel p dc →
        (sym, name) ∈ TOP_STOCKS ∧
        cls = (if change ≥ 0 then "price-up" else "price-down") ∧
        sign = (if change ≥ 0 then "+" else "") ∧
        ∃ np nc cur, get_live_price p sym = (some np, some nc, cur) ∧
          price = np * get_exchange_rate p cur dc ∧
          change = nc * get_exchange_rate p cur dc := by
  refine ⟨rfl, fun p dc => ?_, fun p dc sym name price change cls sign hm => ?_⟩
  · have hproj : (side_panel p dc).map (fun row => (row.1, row.2.1)) =
        TOP_STOCKS.filter (fun e => (side_row p dc e.1).isSome) := by
      rw [side_panel, side_rows_proj]
    have hs : List.Sublist
        ((side_panel p dc).map (fun row => (row.1, row.2.1))) TOP_STOCKS := by
      rw [hproj]
      exact List.filter_sublist TOP_STOCKS
    refine ⟨hproj, ?_, hs⟩
    have := hs.length_le
    simpa using this
  · rw [side_panel, List.mem_filterMap] at hm
    obtain ⟨⟨esym, ename⟩, he, hrow⟩ := hm
    cases hr : side_row p dc esym with
    | none => rw [hr] at hrow; simp at hrow
    | some r =>
        rw [hr] at hrow
        simp only [Option.map_some', Option.some.injEq, Prod.mk.injEq] at hrow
        obtain ⟨hsym, hname, hrr⟩ := hrow
        subst hsym
        subst hname
        subst hrr
        rw [side_row] at hr
        rcases hlp : get_live_price p esym with ⟨a, b, cur⟩
        rw [hlp] at hr
        cases a with
        | none => simp at hr
        | some np =>
            cases b with
            | none => simp at hr
            | some nc =>
                simp only [Option.some.injEq, Prod.mk.injEq] at hr
                obtain ⟨hp, hc, hcls, hsign⟩ := hr
                subst hp
                subst hc
                exact ⟨he, hcls.symm, hsign.symm, np, nc, cur, rfl, rfl, rfl⟩

theorem side_panel_spec_witness :
    ("MRF.BO", "MRF Ltd") ∈ TOP_STOCKS ∧
    "price-up" = (if (2 : ℚ) ≥ 0 then "price-up" else "price-down") ∧
    "+" = (if (2 : ℚ) ≥ 0 then "+" else "") ∧
    ∃ np nc cur,
      get_live_price goodProvider "MRF.BO" = (some np, some nc, cur) ∧
      (12 : ℚ) = np * get_exchange_rate goodProvider cur "USD" ∧
      (2 : ℚ) = nc * get_exchange_rate goodProvider cur "USD" := by
  have h1 : get_live_price goodProvider "MRF.BO" = (some 12, some 2, "USD") := by
    norm_num [get_live_price, goodProvider]
  have hrow : side_row goodProvider "USD" "MRF.BO" =
      some (12, 2, "price-up", "+") := by
    rw [side_row, h1]
    norm_num [get_exchange_rate, get_exchange_rate_traced]
  refine side_panel_spec.2.2 goodProvider "USD" "MRF.BO" "MRF Ltd" 12 2
    "price-up" "+" ?_
  rw [side_panel]
  refine List.mem_filterMap.mpr ⟨("MRF.BO", "MRF Ltd"), by decide, ?_⟩
  rw [hrow]
  rfl

/-- C9: a `cached_get_stock_data` lookup that finds an unexpired entry is
a hit, returning the identical cached (series, currency) with no provider
call; after a miss fills the entry at time `t`, every lookup before
`t + get_stock_data_ttl` returns that same stored result without a
provider call; a lookup at or past the stored expiry is a miss that runs
the fetch again and overwrites the entry; and the live-snapshot cache TTL
(120 s) is strictly shorter than the history cache TTL (600 s). -/
theorem cache_ttl_spec :
    (∀ (p : Provider) (t : ℕ) (c : Cache (String × String) (List ℚ × String))
        (k : String × String) (v : List ℚ × String) (e : ℕ),
      c k = some (v, e) → t < e →
        cached_get_stock_data p t c k = (v, c, false)) ∧
    (∀ (p : Provider) (t t' : ℕ)
        (c : Cache (String × String) (List ℚ × String))
        (k : String × String),
      c k = none →
        (cached_get_stock_data p t c k).2.2 = true ∧
        (cached_get_stock_data p t c k).1 = get_stock_data p k.1 k.2 ∧
        (cached_get_stock_data p t c k).2.1 k =
          some ((cached_get_stock_data p t c k).1, t + get_stock_data_ttl) ∧
        (t' < t + get_stock_data_ttl →
          cached_get_stock_data p t' (cached_get_stock_data p t c k).2.1 k =
            ((cached_get_stock_data p t c k).1,
             (cached_get_stock_data p t c k).2.1, false))) ∧
    (∀ (p : Provider) (t : ℕ) (c : Cache (String × String) (List ℚ × String))
        (k : String × String) (v : List ℚ × String) (e : ℕ),
      c k = some (v, e) → e ≤ t →
        (cached_get_stock_data p t c k).2.2 = true ∧
        (cached_get_stock_data p t c k).1 = get_stock_data p k.1 k.2 ∧
        (cached_get_stock_data p t c k).2.1 k =
          some (get_stock_data p k.1 k.2, t + get_stock_data_ttl)) ∧
    get_live_price_ttl < get_stock_data_ttl := by
  refine ⟨fun p t c k v e hk ht => ?_, fun p t t' c k hk => ?_,
    fun p t c k v e hk ht => ?_, by norm_num [get_live_price_ttl,
      get_stock_data_ttl]⟩
  · rw [cached_get_stock_data, cache_step, hk]
    simp [ht]
  · rw [cached_get_stock_data, cache_step, hk]
    refine ⟨rfl, rfl, by simp, fun ht' => ?_⟩
    rw [cached_get_stock_data, cache_step]
    simp [ht']
  · rw [cached_get_stock_data, cache_step, hk]
    have : ¬ t < e := by omega
    simp [this]

theorem cache_ttl_spec_witness :
    (cached_get_stock_data goodProvider 0 (fun _ => none)
        ("AAPL", "1M")).2.2 = true ∧
    (cached_get_stock_data goodProvider 0 (fun _ => none) ("AAPL", "1M")).1 =
      ([10, 12], "USD") ∧
    cached_get_stock_data goodProvider 599
        (cached_get_stock_data goodProvider 0 (fun _ => none)
          ("AAPL", "1M")).2.1 ("AAPL", "1M") =
      ((cached_get_stock_data goodProvider 0 (fun _ => none)
          ("AAPL", "1M")).1,
       (cached_get_stock_data goodProvider 0 (fun _ => none)
          ("AAPL", "1M")).2.1, false) := by
  have h := cache_ttl_spec.2.1 goodProvider 0 599 (fun _ => none)
    ("AAPL", "1M") rfl
  refine ⟨h.1, h.2.1.trans rfl, h.2.2.2 (by norm_num [get_stock_data_ttl])⟩
